import Mathlib

/-!
Verification of the notes REST service (service layer, storage accessor and
update validator) against its specification.

The embedding models:
* `src/services/note.service.ts` — `NoteService` (create, list, get, update, delete,
  `getUzbekistanTime`);
* `src/utils/file.helper.ts` — `ensureDataFile` / `readNotes`;
* `src/validators/note.validator.ts` — the update-body validation chain.

JavaScript strings are modelled as Lean `String`s; `Date.now()` readings as
milliseconds since the Unix epoch (`Nat`); `Date.prototype.toISOString` as an
executable Gregorian-calendar rendering defined below; file I/O as explicit
state passing over a `FileSys` record; `JSON.parse` as a decoder parameter.
-/

/-! ## Calendar model for `Date.prototype.toISOString` -/

/-- Conversion from days since the Unix epoch (1970-01-01) to a Gregorian civil
date `(year, month, day)`.  This models the calendar arithmetic performed by
the JavaScript `Date` built-ins; the 400-year era is decomposed hierarchically
into centuries, 4-year groups and years. -/
def civilFromDays (z : Nat) : Nat × Nat × Nat :=
  let z' := z + 719468
  let era := z' / 146097
  let doe := z' % 146097
  let c := min (doe / 36524) 3
  let ld := doe - 36524 * c
  let q := ld / 1461
  let gd := ld - 1461 * q
  let r := min (gd / 365) 3
  let doy := gd - 365 * r
  let yoe := 100 * c + 4 * q + r
  let y := yoe + era * 400
  let mp := (5 * doy + 2) / 153
  let d := doy - (153 * mp + 2) / 5 + 1
  let m := if mp < 10 then mp + 3 else mp - 9
  (if m ≤ 2 then y + 1 else y, m, d)

/-- Conversion from a Gregorian civil date back to days since the Unix epoch.
This is the standard closed form and serves as the denotation of a rendered
calendar date. -/
def daysFromCivil (y m d : Nat) : Nat :=
  let y' := if m ≤ 2 then y - 1 else y
  let era := y' / 400
  let yoe := y' % 400
  let mp := if m > 2 then m - 3 else m + 9
  let doy := (153 * mp + 2) / 5 + d - 1
  let doe := yoe * 365 + yoe / 4 - yoe / 100 + doy
  era * 146097 + doe - 719468

/-- Calendar fields of an ISO 8601 UTC timestamp: year, month, day, hour,
minute, second, millisecond. -/
structure IsoFields where
  year : Nat
  month : Nat
  day : Nat
  hour : Nat
  minute : Nat
  second : Nat
  millisecond : Nat
deriving Repr, DecidableEq

/-- Calendar fields displayed by `toISOString` for an instant `u` in
milliseconds since the Unix epoch. -/
def isoFields (u : Nat) : IsoFields :=
  let days := u / 86400000
  let rem := u % 86400000
  let ymd := civilFromDays days
  ⟨ymd.1, ymd.2.1, ymd.2.2, rem / 3600000, rem % 3600000 / 60000, rem % 60000 / 1000, rem % 1000⟩

/-- The UTC instant (milliseconds since the Unix epoch) denoted by a set of
ISO 8601 calendar fields. -/
def fieldsToInstant (f : IsoFields) : Nat :=
  daysFromCivil f.year f.month f.day * 86400000 +
    f.hour * 3600000 + f.minute * 60000 + f.second * 1000 + f.millisecond

/-- Decimal rendering of `n` left-padded with zeros to width `w`. -/
def padNum (w n : Nat) : String :=
  let s := toString n
  String.mk (List.replicate (w - s.length) '0') ++ s

/-- Rendering of ISO 8601 calendar fields in the `YYYY-MM-DDTHH:mm:ss.sssZ`
layout produced by `Date.prototype.toISOString`. -/
def renderIsoFields (f : IsoFields) : String :=
  (padNum 4 f.year ++ "-" ++ padNum 2 f.month ++ "-" ++ padNum 2 f.day ++ "T" ++
    padNum 2 f.hour ++ ":" ++ padNum 2 f.minute ++ ":" ++ padNum 2 f.second ++ "." ++
    padNum 3 f.millisecond) ++ "Z"

/-- Model of `Date.prototype.toISOString` on an instant `u` in milliseconds
since the Unix epoch. -/
def toISOString (u : Nat) : String :=
  renderIsoFields (isoFields u)

/-- Model of `NoteService.getUzbekistanTime` (note.service.ts lines 34-39):
`new Date(now.getTime() + 5 * 60 * 60 * 1000).toISOString()` applied to a
clock reading of `nowMs` milliseconds since the Unix epoch. -/
def getUzbekistanTime (nowMs : Nat) : String :=
  toISOString (nowMs + 5 * 60 * 60 * 1000)

/-! ## Data model (`src/types/note`, reconstructed from its uses) -/

/-- The persisted note record. -/
structure Note where
  id : String
  title : String
  content : String
  createdAt : String
  updatedAt : String
deriving Repr, DecidableEq

instance : Inhabited Note := ⟨⟨"", "", "", "", ""⟩⟩

/-- Request body for note creation. -/
structure CreateNoteDto where
  title : String
  content : String
deriving Repr, DecidableEq

/-- Request body for partial update; `none` models an absent field. -/
structure UpdateNoteDto where
  title : Option String
  content : Option String
deriving Repr, DecidableEq

/-- Query parameters of the list endpoint; `none` models an absent parameter. -/
structure NoteQueryParams where
  page : Option Nat
  limit : Option Nat
  search : Option String
deriving Repr, DecidableEq

/-- Pagination metadata returned by the list endpoint. -/
structure Pagination where
  page : Nat
  limit : Nat
  total : Nat
  totalPages : Nat
deriving Repr, DecidableEq

/-- Paginated response envelope of the list endpoint. -/
structure PaginatedResponse (α : Type) where
  data : List α
  pagination : Pagination
deriving Repr, DecidableEq

/-- Application error carrying an HTTP status code, as thrown by the service. -/
structure AppError where
  statusCode : Nat
  message : String
deriving Repr, DecidableEq

/-! ## JavaScript string primitives used by the service and validator -/

/-- Model of `String.prototype.toLowerCase` (character-wise lowering). -/
def strToLower (s : String) : String :=
  ⟨s.data.map Char.toLower⟩

/-- Model of `String.prototype.trim`: strips leading and trailing whitespace. -/
def strTrim (s : String) : String :=
  ⟨((s.data.dropWhile Char.isWhitespace).reverse.dropWhile Char.isWhitespace).reverse⟩

/-- Model of `String.prototype.includes`: `needle` occurs contiguously in
`hay`. -/
def jsIncludes (hay needle : String) : Bool :=
  decide (needle.data <:+: hay.data)

/-! ## Storage accessor (`src/utils/file.helper.ts`) -/

/-- State of the backing store: `dataFile = none` models a missing
`notes.json`. -/
structure FileSys where
  dataFile : Option String
deriving Repr, DecidableEq

/-- Model of `ensureDataFile` (file.helper.ts lines 7-20): creates the data
file with the serialized empty array (`JSON.stringify([], null, 2) = "[]"`)
when it is missing. -/
def ensureDataFile (fs : FileSys) : FileSys :=
  match fs.dataFile with
  | some _ => fs
  | none => ⟨some "[]"⟩

/-- Model of `readNotes` (file.helper.ts lines 22-31).  `decode` models
`JSON.parse` followed by the cast to `Note[]` (`none` = parse throws);
`readFails` models an I/O failure of `fs.readFile`.  Every failure is caught
and surfaces as the empty list; the function never propagates an error. -/
def readNotes (decode : String → Option (List Note)) (readFails : Bool) (fs : FileSys) :
    List Note × FileSys :=
  let fs' := ensureDataFile fs
  if readFails then ([], fs')
  else
    match fs'.dataFile with
    | none => ([], fs')
    | some raw =>
      match decode raw with
      | some ns => (ns, fs')
      | none => ([], fs')

/-! ## Note service (`src/services/note.service.ts`)

File I/O is made explicit: each operation takes the collection read by
`readNotes` and returns the collection passed to `writeNotes`.  Environment
inputs (the generated UUID and the clock reading) are parameters. -/

/-- Model of `NoteService.createNote` (lines 54-70): builds the record with
the generated id and the Uzbekistan timestamp, appends it (`notes.push`), and
returns the new record together with the persisted collection. -/
def createNote (dto : CreateNoteDto) (newId : String) (nowMs : Nat) (notes : List Note) :
    Note × List Note :=
  let now := getUzbekistanTime nowMs
  let newNote : Note :=
    { id := newId, title := dto.title, content := dto.content, createdAt := now, updatedAt := now }
  (newNote, notes ++ [newNote])

/-- Truthiness of the `search && search.trim()` guard (note.service.ts
line 95): both the raw string and its trimmed form must be non-empty. -/
def searchTruthy (s : String) : Bool :=
  (!(s == "")) && (!(strTrim s == ""))

/-- The search predicate of `getAllNotes` (lines 97-100):
`note.title.toLowerCase().includes(searchLower) ||
 note.content.toLowerCase().includes(searchLower)`. -/
def matchesSearch (searchLower : String) (note : Note) : Bool :=
  jsIncludes (strToLower note.title) searchLower ||
    jsIncludes (strToLower note.content) searchLower

/-- The filtering stage of `getAllNotes` (lines 94-101): filtering happens
only when `search` is present and truthy after trimming. -/
def applySearch (search : Option String) (notes : List Note) : List Note :=
  match search with
  | none => notes
  | some s => if searchTruthy s then notes.filter (matchesSearch (strToLower s)) else notes

/-- Model of `NoteService.getAllNotes` (lines 89-118).  Defaults `page = 1`,
`limit = 10`; `Math.ceil(total / limit)` is `(total + limit - 1) / limit` for
the validator-guaranteed `limit ≥ 1`; `notes.slice(skip, skip + limit)` is
`(drop skip).take limit`. -/
def getAllNotes (params : NoteQueryParams) (notes : List Note) : PaginatedResponse Note :=
  let page := params.page.getD 1
  let limit := params.limit.getD 10
  let filtered := applySearch params.search notes
  let total := filtered.length
  let totalPages := (total + limit - 1) / limit
  let skip := (page - 1) * limit
  { data := (filtered.drop skip).take limit,
    pagination := { page := page, limit := limit, total := total, totalPages := totalPages } }

/-- Model of `NoteService.getNoteById` (lines 127-136): first record with a
matching id, 404 otherwise. -/
def getNoteById (id : String) (notes : List Note) : Except AppError Note :=
  match notes.find? (fun n => n.id == id) with
  | some note => .ok note
  | none => .error ⟨404, s!"Note with id {id} not found"⟩

/-- Model of `Array.prototype.findIndex`: index of the first element
satisfying `p` (`none` models the `-1` result). -/
def findIndex (p : α → Bool) : List α → Option Nat
  | [] => none
  | x :: xs => if p x then some 0 else (findIndex p xs).map (· + 1)

/-- Model of `NoteService.updateNote` (lines 151-171): locates the record by
id, merges only the fields present in the patch (spread of
`dto.title !== undefined && { title: dto.title }`), always refreshes
`updatedAt`, writes the record back at the same index. -/
def updateNote (id : String) (dto : UpdateNoteDto) (nowMs : Nat) (notes : List Note) :
    Except AppError (Note × List Note) :=
  match findIndex (fun n => n.id == id) notes with
  | none => .error ⟨404, s!"Note with id {id} not found"⟩
  | some index =>
    let old := notes.getD index default
    let updatedNote : Note :=
      { old with
        title := dto.title.getD old.title,
        content := dto.content.getD old.content,
        updatedAt := getUzbekistanTime nowMs }
    .ok (updatedNote, notes.set index updatedNote)

/-- Model of `NoteService.deleteNote` (lines 181-194): locates the record by
id, removes it with `splice(index, 1)`, returns the removed record. -/
def deleteNote (id : String) (notes : List Note) : Except AppError (Note × List Note) :=
  match findIndex (fun n => n.id == id) notes with
  | none => .error ⟨404, s!"Note with id {id} not found"⟩
  | some index => .ok (notes.getD index default, notes.eraseIdx index)

/-! ## Update validator (`src/validators/note.validator.ts`, lines 71-104) -/

/-- Request body of the update endpoint before validation; `none` models an
absent JSON field. -/
structure UpdateBody where
  title : Option String
  content : Option String
deriving Repr, DecidableEq

/-- JavaScript truthiness of an optional string field: absent and the empty
string are falsy, any other string is truthy. -/
def jsTruthyStr : Option String → Bool
  | none => false
  | some s => !(s == "")

/-- Effect of the `.trim()` sanitizers of the update chains: each present
field is trimmed in place on the request body. -/
def sanitizeUpdateBody (b : UpdateBody) : UpdateBody :=
  ⟨b.title.map strTrim, b.content.map strTrim⟩

/-- The custom at-least-one-field check (note.validator.ts lines 96-101):
succeeds unless `!req.body.title && !req.body.content`. -/
def atLeastOneFieldCheck (b : UpdateBody) : Bool :=
  jsTruthyStr b.title || jsTruthyStr b.content

/-- The dedicated message thrown by the at-least-one-field check. -/
def atLeastOneFieldMessage : String :=
  "At least one field (title or content) must be provided"

/-- Errors of the optional `title` chain of `validateUpdateNote`: present
titles must have trimmed length 3-100. -/
def titleUpdateErrors : Option String → List String
  | none => []
  | some s =>
    if 3 ≤ (strTrim s).length ∧ (strTrim s).length ≤ 100 then []
    else ["Title must be between 3 and 100 characters"]

/-- Errors of the optional `content` chain of `validateUpdateNote`: present
contents must have trimmed length at most 10000. -/
def contentUpdateErrors : Option String → List String
  | none => []
  | some s =>
    if (strTrim s).length ≤ 10000 then []
    else ["Content must not exceed 10000 characters"]

/-- Body-validation errors collected by the `validateUpdateNote` chain (the
path-id chain is not modelled here). -/
def validateUpdateNote (b : UpdateBody) : List String :=
  titleUpdateErrors b.title ++ contentUpdateErrors b.content ++
    (if atLeastOneFieldCheck (sanitizeUpdateBody b) then [] else [atLeastOneFieldMessage])

/-- Outcome of the update route: either `handleValidationErrors` responds with
400 and the service is never invoked, or the controller calls
`noteService.updateNote`. -/
inductive UpdateOutcome where
  | validationFailed (details : List String)
  | serviceCalled (result : Except AppError (Note × List Note))
deriving Repr

/-- Model of the `PATCH /notes/:id` pipeline (note.routes.ts: validator chain,
then controller): the service runs only when the validation chain produced no
errors, on the sanitized body. -/
def updateEndpoint (id : String) (b : UpdateBody) (nowMs : Nat) (notes : List Note) :
    UpdateOutcome :=
  let errs := validateUpdateNote b
  if errs.isEmpty then
    let b' := sanitizeUpdateBody b
    .serviceCalled (updateNote id ⟨b'.title, b'.content⟩ nowMs notes)
  else
    .validationFailed errs

/-! ## Helper lemmas: calendar roundtrip -/

/-- Unfolding equation for `daysFromCivil`. -/
lemma daysFromCivil_eq (y m d : Nat) :
    daysFromCivil y m d =
      (if m ≤ 2 then y - 1 else y) / 400 * 146097 +
        ((if m ≤ 2 then y - 1 else y) % 400 * 365 +
          (if m ≤ 2 then y - 1 else y) % 400 / 4 -
          (if m ≤ 2 then y - 1 else y) % 400 / 100 +
          ((153 * (if m > 2 then m - 3 else m + 9) + 2) / 5 + d - 1)) - 719468 := rfl

set_option maxHeartbeats 1000000 in
/-- Inversion of the hierarchical civil-date computation: rebuilding the day
count from the produced year, month and day recovers the input. -/
lemma civil_inverse_aux (z era doe c ld q gd r doy yoe y mp dd m : Nat)
    (hera : era = (z + 719468) / 146097)
    (hdoe : doe = (z + 719468) % 146097)
    (hc : c = min (doe / 36524) 3)
    (hld : ld = doe - 36524 * c)
    (hq : q = ld / 1461)
    (hgd : gd = ld - 1461 * q)
    (hr : r = min (gd / 365) 3)
    (hdoy : doy = gd - 365 * r)
    (hyoe : yoe = 100 * c + 4 * q + r)
    (hy : y = yoe + era * 400)
    (hmp : mp = (5 * doy + 2) / 153)
    (hdd : dd = doy - (153 * mp + 2) / 5 + 1)
    (hm : m = if mp < 10 then mp + 3 else mp - 9) :
    daysFromCivil (if m ≤ 2 then y + 1 else y) m dd = z := by
  have hz : era * 146097 + doe = z + 719468 := by omega
  have hdoy' : doy ≤ 365 := by omega
  have hmp' : mp ≤ 11 := by omega
  have hq24 : q ≤ 24 := by omega
  have hyoe399 : yoe ≤ 399 := by omega
  have hydiv : y / 400 = era := by omega
  have hymod : y % 400 = yoe := by omega
  have hyoe4 : yoe / 4 = 25 * c + q := by omega
  have hyoe100 : yoe / 100 = c := by omega
  have hdddoy : (153 * mp + 2) / 5 + dd - 1 = doy := by omega
  rw [daysFromCivil_eq]
  by_cases h10 : mp < 10
  · rw [if_pos h10] at hm
    subst hm
    rw [if_neg (by omega : ¬ (mp + 3 ≤ 2)), if_pos (by omega : mp + 3 > 2),
      Nat.add_sub_cancel, if_neg (by omega : ¬ (mp + 3 ≤ 2)), hydiv, hymod, hyoe4,
      hyoe100, hdddoy]
    clear hdd hmp hy h10 hdoy' hmp' hq24 hyoe399 hydiv hymod hyoe4 hyoe100 hdddoy hera hdoe
    omega
  · rw [if_neg h10] at hm
    subst hm
    rw [if_pos (by omega : mp - 9 ≤ 2), if_neg (by omega : ¬ (mp - 9 > 2)),
      if_pos (by omega : mp - 9 ≤ 2), Nat.add_sub_cancel,
      Nat.sub_add_cancel (by omega : 9 ≤ mp), hydiv, hymod, hyoe4, hyoe100, hdddoy]
    clear hdd hmp hy h10 hdoy' hmp' hq24 hyoe399 hydiv hymod hyoe4 hyoe100 hdddoy hera hdoe
    omega

set_option maxHeartbeats 1000000 in
/-- The civil-date conversion used by the ISO rendering is inverted by the
standard day-count formula. -/
lemma civil_roundtrip (z : Nat) :
    daysFromCivil (civilFromDays z).1 (civilFromDays z).2.1 (civilFromDays z).2.2 = z := by
  unfold civilFromDays
  simp only
  exact civil_inverse_aux z _ _ _ _ _ _ _ _ _ _ _ _ _
    rfl rfl rfl rfl rfl rfl rfl rfl rfl rfl rfl rfl rfl

/-- The calendar fields rendered for an instant denote exactly that instant:
`toISOString` is a faithful UTC serialization. -/
theorem fieldsToInstant_isoFields (u : Nat) : fieldsToInstant (isoFields u) = u := by
  show daysFromCivil (civilFromDays (u / 86400000)).1 (civilFromDays (u / 86400000)).2.1
        (civilFromDays (u / 86400000)).2.2 * 86400000 +
      u % 86400000 / 3600000 * 3600000 + u % 86400000 % 3600000 / 60000 * 60000 +
      u % 86400000 % 60000 / 1000 * 1000 + u % 86400000 % 1000 = u
  rw [civil_roundtrip]
  omega

/-- Every rendered ISO timestamp carries the UTC suffix `Z`. -/
lemma renderIsoFields_endsWith_Z (f : IsoFields) : ∃ p, renderIsoFields f = p ++ "Z" :=
  ⟨_, rfl⟩

/-! ## Helper lemmas: list operations -/

/-- A predicate false on every element yields no index. -/
lemma findIndex_eq_none {α : Type} {p : α → Bool} {l : List α}
    (h : ∀ a ∈ l, p a = false) : findIndex p l = none := by
  induction l with
  | nil => rfl
  | cons x xs ih =>
    have hx := h x (List.mem_cons_self x xs)
    rw [findIndex, hx]
    simp [ih fun a ha => h a (List.mem_cons_of_mem _ ha)]

/-- `findIndex` locates the first hit after a miss prefix. -/
lemma findIndex_append_cons {α : Type} {p : α → Bool} (pre : List α) (x : α) (post : List α)
    (hpre : ∀ a ∈ pre, p a = false) (hx : p x = true) :
    findIndex p (pre ++ x :: post) = some pre.length := by
  induction pre with
  | nil => simp [findIndex, hx]
  | cons a pre ih =>
    have ha := hpre a (List.mem_cons_self a pre)
    rw [List.cons_append, findIndex, ha]
    simp [ih fun b hb => hpre b (List.mem_cons_of_mem _ hb)]

/-- Reading at the index right after a prefix returns the separating
element. -/
lemma getD_append_cons {α : Type} (pre : List α) (x : α) (post : List α) (d : α) :
    (pre ++ x :: post).getD pre.length d = x := by
  induction pre with
  | nil => rfl
  | cons a pre ih => simpa using ih

/-- Writing at the index right after a prefix replaces the separating
element. -/
lemma set_append_cons {α : Type} (pre : List α) (x y : α) (post : List α) :
    (pre ++ x :: post).set pre.length y = pre ++ y :: post := by
  induction pre with
  | nil => rfl
  | cons a pre ih => simp [ih]

/-- Erasing at the index right after a prefix removes the separating
element. -/
lemma eraseIdx_append_cons {α : Type} (pre : List α) (x : α) (post : List α) :
    (pre ++ x :: post).eraseIdx pre.length = pre ++ post := by
  induction pre with
  | nil => rfl
  | cons a pre ih => simp [ih]

/-- Splitting a list into `⌈length / k⌉`-many chunks of size `k` and
concatenating them reconstructs the list. -/
lemma flatMap_range_chunks {α : Type} (k : Nat) :
    ∀ (n : Nat) (l : List α), l.length ≤ n * k →
      (List.range n).flatMap (fun i => (l.drop (i * k)).take k) = l := by
  intro n
  induction n with
  | zero =>
    intro l hl
    have : l = [] := List.eq_nil_of_length_eq_zero (by omega)
    simp [this]
  | succ n ih =>
    intro l hl
    rw [List.range_succ_eq_map, List.flatMap_cons, List.flatMap_map]
    have hfun : (fun i => (l.drop (Nat.succ i * k)).take k) =
        (fun i => (((l.drop k).drop (i * k)).take k)) := by
      funext i
      rw [List.drop_drop, show Nat.succ i * k = k + i * k from by
        rw [Nat.succ_mul, Nat.add_comm]]
    simp only [Nat.zero_mul, List.drop_zero]
    rw [show (fun i => (l.drop (Nat.succ i * k)).take k : Nat → List α) =
        (fun i => (((l.drop k).drop (i * k)).take k)) from hfun]
    rw [ih (l.drop k) (by
      rw [List.length_drop]
      have h1 : (n + 1) * k = n * k + k := Nat.succ_mul n k
      omega)]
    exact List.take_append_drop k l

/-! ## Helper lemmas: service operations -/

/-- Behaviour of `updateNote` when the target id occurs right after a prefix
of non-matching records: the merged record replaces the old one in place. -/
lemma updateNote_found (pre post : List Note) (n : Note) (dto : UpdateNoteDto) (t : Nat)
    (hpre : ∀ m ∈ pre, (m.id == n.id) = false) :
    updateNote n.id dto t (pre ++ n :: post) =
      .ok ({ n with
              title := dto.title.getD n.title,
              content := dto.content.getD n.content,
              updatedAt := getUzbekistanTime t },
          pre ++ { n with
              title := dto.title.getD n.title,
              content := dto.content.getD n.content,
              updatedAt := getUzbekistanTime t } :: post) := by
  unfold updateNote
  rw [findIndex_append_cons pre n post hpre (by simp)]
  simp only [getD_append_cons, set_append_cons]

/-! ## Claim theorems -/

/-- C10: when the `page` parameter is absent the list endpoint behaves exactly
as if `page = 1`, and when `limit` is absent exactly as if `limit = 10`, both
in the returned data window and in the pagination metadata. -/
theorem getAllNotes_defaults (notes : List Note) (l p : Option Nat) (s : Option String) :
    getAllNotes { page := none, limit := l, search := s } notes =
      getAllNotes { page := some 1, limit := l, search := s } notes ∧
    getAllNotes { page := p, limit := none, search := s } notes =
      getAllNotes { page := p, limit := some 10, search := s } notes :=
  ⟨rfl, rfl⟩

/-- C2: for `page ≥ 1` and `limit ≥ 1` the list endpoint returns the
sub-sequence `[offset, offset + limit)` of the filtered collection with
`offset = (page - 1) * limit` in stored order, the empty sequence (not an
error) when `offset ≥ total`, and the metadata
`{page, limit, total, totalPages}`. -/
theorem getAllNotes_slice (notes : List Note) (page limit : Nat) (search : Option String)
    (hp : 1 ≤ page) (hl : 1 ≤ limit) :
    (getAllNotes { page := some page, limit := some limit, search := search } notes).data =
      ((applySearch search notes).drop ((page - 1) * limit)).take limit ∧
    ((applySearch search notes).length ≤ (page - 1) * limit →
      (getAllNotes { page := some page, limit := some limit, search := search } notes).data
        = []) ∧
    (getAllNotes { page := some page, limit := some limit, search := search } notes).pagination =
      { page := page, limit := limit, total := (applySearch search notes).length,
        totalPages := (applySearch search notes).length ⌈/⌉ limit } := by
  refine ⟨rfl, ?_, rfl⟩
  intro h
  show ((applySearch search notes).drop ((page - 1) * limit)).take limit = []
  rw [List.drop_eq_nil_iff.mpr h, List.take_nil]

/-- C2 witness: two stored notes, `page = 2`, `limit = 1`, no search. -/
theorem getAllNotes_slice_witness :
    1 ≤ 2 ∧ 1 ≤ 1 ∧
    ((getAllNotes { page := some 2, limit := some 1, search := none }
        [⟨"a", "t1", "c1", "x", "x"⟩, ⟨"b", "t2", "c2", "y", "y"⟩]).data =
      ((applySearch none [⟨"a", "t1", "c1", "x", "x"⟩, ⟨"b", "t2", "c2", "y", "y"⟩]).drop
        ((2 - 1) * 1)).take 1 ∧
    ((applySearch none [⟨"a", "t1", "c1", "x", "x"⟩, ⟨"b", "t2", "c2", "y", "y"⟩]).length ≤
        (2 - 1) * 1 →
      (getAllNotes { page := some 2, limit := some 1, search := none }
        [⟨"a", "t1", "c1", "x", "x"⟩, ⟨"b", "t2", "c2", "y", "y"⟩]).data = []) ∧
    (getAllNotes { page := some 2, limit := some 1, search := none }
        [⟨"a", "t1", "c1", "x", "x"⟩, ⟨"b", "t2", "c2", "y", "y"⟩]).pagination =
      { page := 2, limit := 1,
        total := (applySearch none
          [⟨"a", "t1", "c1", "x", "x"⟩, ⟨"b", "t2", "c2", "y", "y"⟩]).length,
        totalPages := (applySearch none
          [⟨"a", "t1", "c1", "x", "x"⟩, ⟨"b", "t2", "c2", "y", "y"⟩]).length ⌈/⌉ 1 }) :=
  ⟨by decide, by decide,
    getAllNotes_slice [⟨"a", "t1", "c1", "x", "x"⟩, ⟨"b", "t2", "c2", "y", "y"⟩] 2 1 none
      (by decide) (by decide)⟩

/-- C8: `readNotes` returns the persisted sequence; a missing backing file is
initialized to the empty array and read as the empty sequence; a read or
parse failure yields the empty sequence instead of an error. -/
theorem readNotes_spec (decode : String → Option (List Note)) (fs : FileSys)
    (hdec : decode "[]" = some []) :
    (fs.dataFile = none → readNotes decode false fs = ([], ⟨some "[]"⟩)) ∧
    ((readNotes decode true fs).1 = []) ∧
    (∀ raw, fs.dataFile = some raw → decode raw = none →
      (readNotes decode false fs).1 = []) ∧
    (∀ raw ns, fs.dataFile = some raw → decode raw = some ns →
      readNotes decode false fs = (ns, fs)) := by
  refine ⟨?_, ?_, ?_, ?_⟩
  · intro h
    simp [readNotes, ensureDataFile, h, hdec]
  · simp [readNotes]
  · intro raw h hd
    rcases fs with ⟨df⟩
    simp only at h
    subst h
    simp [readNotes, ensureDataFile, hd]
  · intro raw ns h hd
    rcases fs with ⟨df⟩
    simp only at h
    subst h
    simp [readNotes, ensureDataFile, hd]

/-- C8 witness: a missing file together with a decoder mapping the serialized
empty array to the empty collection. -/
theorem readNotes_spec_witness :
    ((fun s => if s = "[]" then some ([] : List Note) else none) "[]" = some []) ∧
    (((⟨none⟩ : FileSys).dataFile = none →
      readNotes (fun s => if s = "[]" then some ([] : List Note) else none) false ⟨none⟩ =
        ([], ⟨some "[]"⟩)) ∧
    ((readNotes (fun s => if s = "[]" then some ([] : List Note) else none) true ⟨none⟩).1
      = []) ∧
    (∀ raw, (⟨none⟩ : FileSys).dataFile = some raw →
      (fun s => if s = "[]" then some ([] : List Note) else none) raw = none →
      (readNotes (fun s => if s = "[]" then some ([] : List Note) else none) false ⟨none⟩).1
        = []) ∧
    (∀ raw ns, (⟨none⟩ : FileSys).dataFile = some raw →
      (fun s => if s = "[]" then some ([] : List Note) else none) raw = some ns →
      readNotes (fun s => if s = "[]" then some ([] : List Note) else none) false ⟨none⟩ =
        (ns, ⟨none⟩))) :=
  ⟨by decide,
    readNotes_spec (fun s => if s = "[]" then some ([] : List Note) else none) ⟨none⟩
      (by decide)⟩

/-- C6 counterexample: a title that is present in the request body but equal
to the empty string makes the at-least-one-field check fail, refuting the
claimed equivalence with mere field presence. -/
theorem atLeastOneFieldCheck_presence_counterexample :
    ({ title := some "", content := none } : UpdateBody).title.isSome = true ∧
    atLeastOneFieldCheck
      (sanitizeUpdateBody { title := some "", content := none }) = false := by
  decide

/-- C6 (amended): the at-least-one-field check succeeds iff `title` or
`content` is present with a value that is non-empty after trimming (JavaScript
truthiness of the sanitized field), and when both fields are absent the update
pipeline fails with exactly the dedicated message and never invokes the
service. -/
theorem validateUpdateNote_at_least_one_field (b : UpdateBody) :
    (atLeastOneFieldCheck (sanitizeUpdateBody b) = true ↔
      (∃ s, b.title = some s ∧ strTrim s ≠ "") ∨
      (∃ s, b.content = some s ∧ strTrim s ≠ "")) ∧
    (b.title = none → b.content = none →
      validateUpdateNote b = [atLeastOneFieldMessage] ∧
      ∀ id nowMs notes, updateEndpoint id b nowMs notes =
        .validationFailed [atLeastOneFieldMessage]) := by
  constructor
  · rcases b with ⟨t, c⟩
    rcases t with _ | s <;> rcases c with _ | s' <;>
      simp [atLeastOneFieldCheck, sanitizeUpdateBody, jsTruthyStr]
  · intro ht hc
    have hv : validateUpdateNote b = [atLeastOneFieldMessage] := by
      simp [validateUpdateNote, titleUpdateErrors, contentUpdateErrors, ht, hc,
        atLeastOneFieldCheck, sanitizeUpdateBody, jsTruthyStr]
    refine ⟨hv, fun id nowMs notes => ?_⟩
    simp [updateEndpoint, hv]

/-- C6 witness: the empty update body fails with the dedicated message. -/
theorem validateUpdateNote_at_least_one_field_witness :
    (({ title := none, content := none } : UpdateBody).title = none) ∧
    ((atLeastOneFieldCheck
        (sanitizeUpdateBody { title := none, content := none }) = true ↔
      (∃ s, ({ title := none, content := none } : UpdateBody).title = some s ∧
        strTrim s ≠ "") ∨
      (∃ s, ({ title := none, content := none } : UpdateBody).content = some s ∧
        strTrim s ≠ "")) ∧
    (({ title := none, content := none } : UpdateBody).title = none →
      ({ title := none, content := none } : UpdateBody).content = none →
      validateUpdateNote { title := none, content := none } = [atLeastOneFieldMessage] ∧
      ∀ id nowMs notes, updateEndpoint id { title := none, content := none } nowMs notes =
        .validationFailed [atLeastOneFieldMessage])) :=
  ⟨rfl, validateUpdateNote_at_least_one_field { title := none, content := none }⟩

/-- C3: with a present, non-blank search string, the list filter retains
exactly the records whose title or content contains the search string under
case-insensitive comparison, preserving stored order; an absent or blank
search filters nothing; a note titled "Meeting Notes" is retained for the
terms "meeting" and "NOTES". -/
theorem applySearch_case_insensitive_filter (notes : List Note) (s : String)
    (hs : strTrim s ≠ "") :
    List.Sublist (applySearch (some s) notes) notes ∧
    (∀ n : Note, n ∈ applySearch (some s) notes ↔
      n ∈ notes ∧ ((strToLower s).data <:+: (strToLower n.title).data ∨
        (strToLower s).data <:+: (strToLower n.content).data)) ∧
    applySearch none notes = notes ∧
    (∀ s' : String, strTrim s' = "" → applySearch (some s') notes = notes) ∧
    (∀ n : Note, n.title = "Meeting Notes" →
      n ∈ applySearch (some "meeting") [n] ∧ n ∈ applySearch (some "NOTES") [n]) := by
  have hs0 : s ≠ "" := by
    intro h
    exact hs (by rw [h]; rfl)
  have hst : searchTruthy s = true := by
    unfold searchTruthy
    simp [hs0, hs]
  refine ⟨?_, ?_, rfl, ?_, ?_⟩
  · simp only [applySearch, hst, if_true]
    exact List.filter_sublist notes
  · intro n
    simp [applySearch, hst, List.mem_filter, matchesSearch, jsIncludes]
  · intro s' h
    simp [applySearch, searchTruthy, h]
  · intro n hT
    have hm1 : matchesSearch (strToLower "meeting") n = true := by
      unfold matchesSearch
      rw [hT, show jsIncludes (strToLower "Meeting Notes") (strToLower "meeting") = true
        from by decide, Bool.true_or]
    have hm2 : matchesSearch (strToLower "NOTES") n = true := by
      unfold matchesSearch
      rw [hT, show jsIncludes (strToLower "Meeting Notes") (strToLower "NOTES") = true
        from by decide, Bool.true_or]
    constructor
    · simp [applySearch, show searchTruthy "meeting" = true from by decide,
        List.mem_filter, hm1]
    · simp [applySearch, show searchTruthy "NOTES" = true from by decide,
        List.mem_filter, hm2]

/-- C3 witness: the search term "meeting" on a singleton collection holding
the note titled "Meeting Notes". -/
theorem applySearch_case_insensitive_filter_witness :
    strTrim "meeting" ≠ "" ∧
    (List.Sublist (applySearch (some "meeting") [⟨"a", "Meeting Notes", "", "x", "x"⟩])
        [⟨"a", "Meeting Notes", "", "x", "x"⟩] ∧
    (∀ n : Note, n ∈ applySearch (some "meeting") [⟨"a", "Meeting Notes", "", "x", "x"⟩] ↔
      n ∈ [(⟨"a", "Meeting Notes", "", "x", "x"⟩ : Note)] ∧
        ((strToLower "meeting").data <:+: (strToLower n.title).data ∨
          (strToLower "meeting").data <:+: (strToLower n.content).data)) ∧
    applySearch none [⟨"a", "Meeting Notes", "", "x", "x"⟩] =
      [⟨"a", "Meeting Notes", "", "x", "x"⟩] ∧
    (∀ s' : String, strTrim s' = "" →
      applySearch (some s') [⟨"a", "Meeting Notes", "", "x", "x"⟩] =
        [⟨"a", "Meeting Notes", "", "x", "x"⟩]) ∧
    (∀ n : Note, n.title = "Meeting Notes" →
      n ∈ applySearch (some "meeting") [n] ∧ n ∈ applySearch (some "NOTES") [n])) :=
  ⟨by decide,
    applySearch_case_insensitive_filter [⟨"a", "Meeting Notes", "", "x", "x"⟩] "meeting"
      (by decide)⟩

/-- C5: when exactly one stored record has id `X`, deleting `X` removes
precisely that record (count drops by one, all others keep value and order),
returns the removed record itself, and a later `getNoteById X` fails with 404;
deleting an absent id fails with 404. -/
theorem deleteNote_removes_exactly_one (pre post : List Note) (n : Note) (X : String)
    (hn : n.id = X) (hpre : ∀ m ∈ pre, m.id ≠ X) (hpost : ∀ m ∈ post, m.id ≠ X) :
    deleteNote X (pre ++ n :: post) = .ok (n, pre ++ post) ∧
    (pre ++ post).length + 1 = (pre ++ n :: post).length ∧
    getNoteById X (pre ++ post) = .error ⟨404, s!"Note with id {X} not found"⟩ ∧
    (∀ notes2 : List Note, (∀ m ∈ notes2, m.id ≠ X) →
      deleteNote X notes2 = .error ⟨404, s!"Note with id {X} not found"⟩) := by
  refine ⟨?_, by simp only [List.length_append, List.length_cons]; omega, ?_, ?_⟩
  · unfold deleteNote
    rw [findIndex_append_cons pre n post (fun m hm => by simp [hpre m hm]) (by simp [hn])]
    simp only [getD_append_cons, eraseIdx_append_cons]
  · unfold getNoteById
    rw [List.find?_eq_none.mpr ?hall]
    case hall =>
      intro x hx
      rcases List.mem_append.mp hx with h | h
      · simp [hpre x h]
      · simp [hpost x h]
  · intro notes2 h2
    unfold deleteNote
    rw [findIndex_eq_none (fun m hm => by simp [h2 m hm])]

/-- C5 witness: a three-element collection whose middle record carries the
deleted id. -/
theorem deleteNote_removes_exactly_one_witness :
    (⟨"b", "t2", "c2", "y", "y"⟩ : Note).id = "b" ∧
    (∀ m ∈ [(⟨"a", "t1", "c1", "x", "x"⟩ : Note)], m.id ≠ "b") ∧
    (∀ m ∈ [(⟨"c", "t3", "c3", "z", "z"⟩ : Note)], m.id ≠ "b") ∧
    (deleteNote "b"
        ([⟨"a", "t1", "c1", "x", "x"⟩] ++ ⟨"b", "t2", "c2", "y", "y"⟩ ::
          [⟨"c", "t3", "c3", "z", "z"⟩]) =
      .ok (⟨"b", "t2", "c2", "y", "y"⟩,
        [⟨"a", "t1", "c1", "x", "x"⟩] ++ [⟨"c", "t3", "c3", "z", "z"⟩]) ∧
    ([(⟨"a", "t1", "c1", "x", "x"⟩ : Note)] ++ [(⟨"c", "t3", "c3", "z", "z"⟩ : Note)]).length
        + 1 =
      ([(⟨"a", "t1", "c1", "x", "x"⟩ : Note)] ++ (⟨"b", "t2", "c2", "y", "y"⟩ : Note) ::
        [(⟨"c", "t3", "c3", "z", "z"⟩ : Note)]).length ∧
    getNoteById "b" ([⟨"a", "t1", "c1", "x", "x"⟩] ++ [⟨"c", "t3", "c3", "z", "z"⟩]) =
      .error ⟨404, s!"Note with id b not found"⟩ ∧
    (∀ notes2 : List Note, (∀ m ∈ notes2, m.id ≠ "b") →
      deleteNote "b" notes2 = .error ⟨404, s!"Note with id b not found"⟩)) :=
  ⟨rfl, by decide, by decide,
    deleteNote_removes_exactly_one ([⟨"a", "t1", "c1", "x", "x"⟩] : List Note)
      ([⟨"c", "t3", "c3", "z", "z"⟩] : List Note)
      (⟨"b", "t2", "c2", "y", "y"⟩ : Note) "b" rfl (by decide) (by decide)⟩

/-- C7: creating a note with a fresh generated id and fetching it back by that
id returns the identical record, whose `createdAt` equals its `updatedAt`. -/
theorem createNote_getNoteById_roundtrip (dto : CreateNoteDto) (newId : String) (t : Nat)
    (notes : List Note) (hfresh : ∀ m ∈ notes, m.id ≠ newId) :
    getNoteById newId (createNote dto newId t notes).2 =
      .ok (createNote dto newId t notes).1 ∧
    (createNote dto newId t notes).1.createdAt = (createNote dto newId t notes).1.updatedAt := by
  constructor
  · show getNoteById newId (notes ++ [_]) = _
    unfold getNoteById
    rw [List.find?_append, List.find?_eq_none.mpr (fun x hx => by simp [hfresh x hx])]
    simp [createNote]
  · rfl

/-- C7 witness: creation over a singleton collection with a distinct id. -/
theorem createNote_getNoteById_roundtrip_witness :
    (∀ m ∈ [(⟨"a", "t1", "c1", "x", "x"⟩ : Note)], m.id ≠ "fresh") ∧
    (getNoteById "fresh"
        (createNote ⟨"T", "C"⟩ "fresh" 0 [⟨"a", "t1", "c1", "x", "x"⟩]).2 =
      .ok (createNote ⟨"T", "C"⟩ "fresh" 0 [⟨"a", "t1", "c1", "x", "x"⟩]).1 ∧
    (createNote ⟨"T", "C"⟩ "fresh" 0 [⟨"a", "t1", "c1", "x", "x"⟩]).1.createdAt =
      (createNote ⟨"T", "C"⟩ "fresh" 0 [⟨"a", "t1", "c1", "x", "x"⟩]).1.updatedAt) :=
  ⟨by decide,
    createNote_getNoteById_roundtrip ⟨"T", "C"⟩ "fresh" 0 [⟨"a", "t1", "c1", "x", "x"⟩]
      (by decide)⟩

/-- C4: `updateNote` merges only the fields present in the patch — an absent
field leaves the stored value untouched while a present (possibly empty)
field overwrites it — never changes `id` or `createdAt`, always refreshes
`updatedAt` to the current Uzbekistan timestamp, and under a monotone clock
the instant denoted by `updatedAt` never decreases. -/
theorem updateNote_partial_merge (pre post : List Note) (n : Note) (patch : UpdateNoteDto)
    (t1 : Nat) (hpre : ∀ m ∈ pre, m.id ≠ n.id) :
    ∃ n' : Note,
      updateNote n.id patch t1 (pre ++ n :: post) = .ok (n', pre ++ n' :: post) ∧
      (patch.title = none → n'.title = n.title) ∧
      (∀ s, patch.title = some s → n'.title = s) ∧
      (patch.content = none → n'.content = n.content) ∧
      (∀ s, patch.content = some s → n'.content = s) ∧
      n'.id = n.id ∧
      n'.createdAt = n.createdAt ∧
      n'.updatedAt = getUzbekistanTime t1 ∧
      (∀ t0, t0 ≤ t1 → n.updatedAt = getUzbekistanTime t0 →
        fieldsToInstant (isoFields (t0 + 5 * 60 * 60 * 1000)) ≤
          fieldsToInstant (isoFields (t1 + 5 * 60 * 60 * 1000))) := by
  refine ⟨_, updateNote_found pre post n patch t1 (fun m hm => by simp [hpre m hm]),
    ?_, ?_, ?_, ?_, rfl, rfl, rfl, ?_⟩
  · intro h
    simp [h]
  · intro s h
    simp [h]
  · intro h
    simp [h]
  · intro s h
    simp [h]
  · intro t0 h1 h2
    rw [fieldsToInstant_isoFields, fieldsToInstant_isoFields]
    omega

/-- C4 witness: a singleton collection, a patch touching only the title. -/
theorem updateNote_partial_merge_witness :
    (∀ m ∈ ([] : List Note), m.id ≠ (⟨"a", "Old", "Body", "x", "x"⟩ : Note).id) ∧
    (∃ n' : Note,
      updateNote (⟨"a", "Old", "Body", "x", "x"⟩ : Note).id ⟨some "New", none⟩ 7
          ([] ++ (⟨"a", "Old", "Body", "x", "x"⟩ : Note) :: []) =
        .ok (n', [] ++ n' :: []) ∧
      ((⟨some "New", none⟩ : UpdateNoteDto).title = none →
        n'.title = (⟨"a", "Old", "Body", "x", "x"⟩ : Note).title) ∧
      (∀ s, (⟨some "New", none⟩ : UpdateNoteDto).title = some s → n'.title = s) ∧
      ((⟨some "New", none⟩ : UpdateNoteDto).content = none →
        n'.content = (⟨"a", "Old", "Body", "x", "x"⟩ : Note).content) ∧
      (∀ s, (⟨some "New", none⟩ : UpdateNoteDto).content = some s → n'.content = s) ∧
      n'.id = (⟨"a", "Old", "Body", "x", "x"⟩ : Note).id ∧
      n'.createdAt = (⟨"a", "Old", "Body", "x", "x"⟩ : Note).createdAt ∧
      n'.updatedAt = getUzbekistanTime 7 ∧
      (∀ t0, t0 ≤ 7 → (⟨"a", "Old", "Body", "x", "x"⟩ : Note).updatedAt =
          getUzbekistanTime t0 →
        fieldsToInstant (isoFields (t0 + 5 * 60 * 60 * 1000)) ≤
          fieldsToInstant (isoFields (7 + 5 * 60 * 60 * 1000)))) :=
  ⟨by simp,
    updateNote_partial_merge [] [] ⟨"a", "Old", "Body", "x", "x"⟩ ⟨some "New", none⟩ 7
      (by simp)⟩

/-- C9: every timestamp the service stores — `createdAt` and `updatedAt` at
creation and `updatedAt` at update — is the ISO rendering, with a UTC `Z`
suffix, of the instant `t + 5` hours for clock reading `t`: its calendar
fields denote exactly `t + 5 * 60 * 60 * 1000` milliseconds, not `t`. -/
theorem storedTimestamps_denote_shifted_instant (t : Nat) (dto : CreateNoteDto)
    (newId : String) (notes : List Note) (pre post : List Note) (n : Note)
    (patch : UpdateNoteDto) (t1 : Nat) (hpre : ∀ m ∈ pre, m.id ≠ n.id) :
    (createNote dto newId t notes).1.createdAt = toISOString (t + 5 * 60 * 60 * 1000) ∧
    (createNote dto newId t notes).1.updatedAt = toISOString (t + 5 * 60 * 60 * 1000) ∧
    (∃ n' rest, updateNote n.id patch t1 (pre ++ n :: post) = .ok (n', rest) ∧
      n'.updatedAt = toISOString (t1 + 5 * 60 * 60 * 1000)) ∧
    fieldsToInstant (isoFields (t + 5 * 60 * 60 * 1000)) = t + 5 * 60 * 60 * 1000 ∧
    fieldsToInstant (isoFields (t + 5 * 60 * 60 * 1000)) ≠ t ∧
    (∃ p, toISOString (t + 5 * 60 * 60 * 1000) = p ++ "Z") := by
  refine ⟨rfl, rfl,
    ⟨_, _, updateNote_found pre post n patch t1 (fun m hm => by simp [hpre m hm]), rfl⟩,
    fieldsToInstant_isoFields _, ?_, renderIsoFields_endsWith_Z _⟩
  rw [fieldsToInstant_isoFields]
  omega

/-- C9 witness: clock reading 0 with a trivial collection and patch. -/
theorem storedTimestamps_denote_shifted_instant_witness :
    (∀ m ∈ ([] : List Note), m.id ≠ (⟨"a", "T", "C", "x", "x"⟩ : Note).id) ∧
    ((createNote ⟨"T", "C"⟩ "a" 0 []).1.createdAt = toISOString (0 + 5 * 60 * 60 * 1000) ∧
    (createNote ⟨"T", "C"⟩ "a" 0 []).1.updatedAt = toISOString (0 + 5 * 60 * 60 * 1000) ∧
    (∃ n' rest, updateNote (⟨"a", "T", "C", "x", "x"⟩ : Note).id ⟨none, some "D"⟩ 1
        ([] ++ (⟨"a", "T", "C", "x", "x"⟩ : Note) :: []) = .ok (n', rest) ∧
      n'.updatedAt = toISOString (1 + 5 * 60 * 60 * 1000)) ∧
    fieldsToInstant (isoFields (0 + 5 * 60 * 60 * 1000)) = 0 + 5 * 60 * 60 * 1000 ∧
    fieldsToInstant (isoFields (0 + 5 * 60 * 60 * 1000)) ≠ 0 ∧
    (∃ p, toISOString (0 + 5 * 60 * 60 * 1000) = p ++ "Z")) :=
  ⟨by simp,
    storedTimestamps_denote_shifted_instant 0 ⟨"T", "C"⟩ "a" [] [] []
      ⟨"a", "T", "C", "x", "x"⟩ ⟨none, some "D"⟩ 1 (by simp)⟩

/-- C1: for any search and any `limit` in `[1, 100]`, concatenating the data
of pages `1 .. totalPages` reconstructs the filtered collection exactly (no
duplication, no omission), and `totalPages` is the ceiling of
`total / limit` — the least page count whose pages cover all records. -/
theorem getAllNotes_pagination_partition (notes : List Note) (search : Option String)
    (limit : Nat) (h1 : 1 ≤ limit) (h100 : limit ≤ 100) :
    (List.range ((getAllNotes { page := some 1, limit := some limit, search := search }
        notes).pagination.totalPages)).flatMap
      (fun i => (getAllNotes { page := some (i + 1), limit := some limit, search := search }
        notes).data) = applySearch search notes ∧
    (∀ page : Nat, (getAllNotes { page := some page, limit := some limit, search := search }
        notes).pagination.totalPages = (applySearch search notes).length ⌈/⌉ limit) ∧
    (applySearch search notes).length ≤
      limit * ((applySearch search notes).length ⌈/⌉ limit) ∧
    (∀ c : Nat, (applySearch search notes).length ≤ limit * c →
      (applySearch search notes).length ⌈/⌉ limit ≤ c) := by
  have hl0 : 0 < limit := h1
  have hle : (applySearch search notes).length ≤
      limit * ((applySearch search notes).length ⌈/⌉ limit) :=
    (ceilDiv_le_iff_le_mul hl0).mp le_rfl
  refine ⟨?_, fun _ => rfl, hle, fun c hc => (ceilDiv_le_iff_le_mul hl0).mpr hc⟩
  have hdata : (fun i => (getAllNotes
        { page := some (i + 1), limit := some limit, search := search } notes).data) =
      (fun i => ((applySearch search notes).drop (i * limit)).take limit) := by
    funext i
    show ((applySearch search notes).drop ((i + 1 - 1) * limit)).take limit = _
    rw [Nat.add_sub_cancel]
  rw [hdata,
    show (getAllNotes { page := some 1, limit := some limit, search := search }
      notes).pagination.totalPages = (applySearch search notes).length ⌈/⌉ limit from rfl]
  exact flatMap_range_chunks limit _ (applySearch search notes)
    (by rw [Nat.mul_comm]; exact hle)

/-- C1 witness: three stored notes, `limit = 2`, no search. -/
theorem getAllNotes_pagination_partition_witness :
    1 ≤ 2 ∧ 2 ≤ 100 ∧
    ((List.range ((getAllNotes { page := some 1, limit := some 2, search := none }
        [(⟨"a", "t1", "c1", "x", "x"⟩ : Note), ⟨"b", "t2", "c2", "y", "y"⟩,
          ⟨"c", "t3", "c3", "z", "z"⟩]).pagination.totalPages)).flatMap
      (fun i => (getAllNotes { page := some (i + 1), limit := some 2, search := none }
        [(⟨"a", "t1", "c1", "x", "x"⟩ : Note), ⟨"b", "t2", "c2", "y", "y"⟩,
          ⟨"c", "t3", "c3", "z", "z"⟩]).data) =
      applySearch none [(⟨"a", "t1", "c1", "x", "x"⟩ : Note), ⟨"b", "t2", "c2", "y", "y"⟩,
        ⟨"c", "t3", "c3", "z", "z"⟩] ∧
    (∀ page : Nat, (getAllNotes { page := some page, limit := some 2, search := none }
        [(⟨"a", "t1", "c1", "x", "x"⟩ : Note), ⟨"b", "t2", "c2", "y", "y"⟩,
          ⟨"c", "t3", "c3", "z", "z"⟩]).pagination.totalPages =
      (applySearch none [(⟨"a", "t1", "c1", "x", "x"⟩ : Note), ⟨"b", "t2", "c2", "y", "y"⟩,
        ⟨"c", "t3", "c3", "z", "z"⟩]).length ⌈/⌉ 2) ∧
    (applySearch none [(⟨"a", "t1", "c1", "x", "x"⟩ : Note), ⟨"b", "t2", "c2", "y", "y"⟩,
        ⟨"c", "t3", "c3", "z", "z"⟩]).length ≤
      2 * ((applySearch none [(⟨"a", "t1", "c1", "x", "x"⟩ : Note),
        ⟨"b", "t2", "c2", "y", "y"⟩, ⟨"c", "t3", "c3", "z", "z"⟩]).length ⌈/⌉ 2) ∧
    (∀ c : Nat, (applySearch none [(⟨"a", "t1", "c1", "x", "x"⟩ : Note),
        ⟨"b", "t2", "c2", "y", "y"⟩, ⟨"c", "t3", "c3", "z", "z"⟩]).length ≤ 2 * c →
      (applySearch none [(⟨"a", "t1", "c1", "x", "x"⟩ : Note), ⟨"b", "t2", "c2", "y", "y"⟩,
        ⟨"c", "t3", "c3", "z", "z"⟩]).length ⌈/⌉ 2 ≤ c)) :=
  ⟨by decide, by decide,
    getAllNotes_pagination_partition
      [(⟨"a", "t1", "c1", "x", "x"⟩ : Note), ⟨"b", "t2", "c2", "y", "y"⟩,
        ⟨"c", "t3", "c3", "z", "z"⟩] none 2 (by decide) (by decide)⟩
